import Mathlib

/-!
Verification development for the toolsgp repository (md5check.py and
md5_recursive.py): a shallow embedding of the manifest protocol, the
MD5 checksum primitive, the manifest line grammar, per-entry
classification, aggregation and exit codes, together with theorems
settling the specification claims.

Machine words are modelled as Nat with explicit reduction modulo 2^32;
bytes are Nat below 256; file paths are lists of name components.
-/

set_option maxRecDepth 100000

namespace ToolsGP

/-! ### The checksum primitive (hashlib.md5, used by compute_md5 in both tools)

The MD5 algorithm (RFC 1321) over a list of bytes, producing the
lowercase 32-hex-character digest string exactly as hexdigest() does. -/

def w32 : Nat := 4294967296

/-- Left rotation of a 32-bit word. -/
def rotl32 (x n : Nat) : Nat := ((x <<< n) ||| (x >>> (32 - n))) % w32

/-- The 64 sine-derived round constants of MD5. -/
def md5K : List Nat :=
  [3614090360, 3905402710, 606105819, 3250441966,
  4118548399, 1200080426, 2821735955, 4249261313,
  1770035416, 2336552879, 4294925233, 2304563134,
  1804603682, 4254626195, 2792965006, 1236535329,
  4129170786, 3225465664, 643717713, 3921069994,
  3593408605, 38016083, 3634488961, 3889429448,
  568446438, 3275163606, 4107603335, 1163531501,
  2850285829, 4243563512, 1735328473, 2368359562,
  4294588738, 2272392833, 1839030562, 4259657740,
  2763975236, 1272893353, 4139469664, 3200236656,
  681279174, 3936430074, 3572445317, 76029189,
  3654602809, 3873151461, 530742520, 3299628645,
  4096336452, 1126891415, 2878612391, 4237533241,
  1700485571, 2399980690, 4293915773, 2240044497,
  1873313359, 4264355552, 2734768916, 1309151649,
  4149444226, 3174756917, 718787259, 3951481745]

/-- The per-round left-rotation amounts of MD5. -/
def md5S : List Nat :=
  [7, 12, 17, 22, 7, 12, 17, 22, 7, 12, 17, 22, 7, 12, 17, 22,
   5, 9, 14, 20, 5, 9, 14, 20, 5, 9, 14, 20, 5, 9, 14, 20,
   4, 11, 16, 23, 4, 11, 16, 23, 4, 11, 16, 23, 4, 11, 16, 23,
   6, 10, 15, 21, 6, 10, 15, 21, 6, 10, 15, 21, 6, 10, 15, 21]

/-- Decode a 64-byte block into 16 little-endian 32-bit words. -/
def leWords : List Nat → List Nat
  | b0 :: b1 :: b2 :: b3 :: rest =>
      (b0 + 256 * b1 + 65536 * b2 + 16777216 * b3) :: leWords rest
  | _ => []

/-- One MD5 round (index i between 0 and 63) on the state (a, b, c, d). -/
def md5Round (M : List Nat) (st : Nat × Nat × Nat × Nat) (i : Nat) :
    Nat × Nat × Nat × Nat :=
  let a := st.1
  let b := st.2.1
  let c := st.2.2.1
  let d := st.2.2.2
  let f :=
    if i < 16 then (b &&& c) ||| ((b ^^^ 4294967295) &&& d)
    else if i < 32 then (d &&& b) ||| ((d ^^^ 4294967295) &&& c)
    else if i < 48 then b ^^^ c ^^^ d
    else c ^^^ (b ||| (d ^^^ 4294967295))
  let g :=
    if i < 16 then i
    else if i < 32 then (5 * i + 1) % 16
    else if i < 48 then (3 * i + 5) % 16
    else (7 * i) % 16
  let fv := (f + a + md5K.getD i 0 + M.getD g 0) % w32
  (d, (b + rotl32 fv (md5S.getD i 0)) % w32, b, c)

/-- Process one 64-byte block, adding the round output into the chaining state. -/
def md5Block (st : Nat × Nat × Nat × Nat) (block : List Nat) :
    Nat × Nat × Nat × Nat :=
  let M := leWords block
  let r := (List.range 64).foldl (md5Round M) st
  ((st.1 + r.1) % w32, (st.2.1 + r.2.1) % w32,
   (st.2.2.1 + r.2.2.1) % w32, (st.2.2.2 + r.2.2.2) % w32)

/-- Feed bytes one at a time into a 64-byte buffer, compressing each full
block with md5Block; a padded message has length a multiple of 64, so it
ends on a block boundary. -/
def md5Absorb (st : Nat × Nat × Nat × Nat) (buf : List Nat) :
    List Nat → Nat × Nat × Nat × Nat
  | [] => st
  | b :: rest =>
      let buf2 := buf ++ [b]
      if buf2.length = 64 then md5Absorb (md5Block st buf2) [] rest
      else md5Absorb st buf2 rest

/-- Fold md5Block over the 64-byte chunks of a padded message. -/
def md5Chunks (st : Nat × Nat × Nat × Nat) (bytes : List Nat) :
    Nat × Nat × Nat × Nat :=
  md5Absorb st [] bytes

/-- The n least-significant bytes of a number, little-endian. -/
def leBytes (n : Nat) (x : Nat) : List Nat :=
  (List.range n).map (fun i => x / 256 ^ i % 256)

/-- MD5 padding: a 0x80 byte, zeros to 56 mod 64, then the 64-bit bit length. -/
def md5Pad (msg : List Nat) : List Nat :=
  let r := (msg.length + 1) % 64
  msg ++ 128 :: List.replicate ((120 - r) % 64) 0 ++
    leBytes 8 (8 * msg.length % 18446744073709551616)

/-- The 16-byte MD5 digest of a byte list. -/
def md5Digest (msg : List Nat) : List Nat :=
  let r := md5Chunks (1732584193, 4023233417, 2562383102, 271733878) (md5Pad msg)
  leBytes 4 r.1 ++ leBytes 4 r.2.1 ++ leBytes 4 r.2.2.1 ++ leBytes 4 r.2.2.2

/-- Lowercase hexadecimal digit character for a value below 16. -/
def hexDigitChar (n : Nat) : Char :=
  if n < 10 then Char.ofNat (48 + n) else Char.ofNat (87 + n)

/-- Two lowercase hex characters for one byte. -/
def byteHex (b : Nat) : List Char := [hexDigitChar (b / 16), hexDigitChar (b % 16)]

/-- hexdigest(): the 32-character lowercase hex string of the MD5 digest. -/
def md5Hex (msg : List Nat) : String :=
  String.mk ((md5Digest msg).map byteHex).flatten

/-- UTF-8 encoding of one character, as the bytes Python writes for it. -/
def utf8Enc (c : Char) : List Nat :=
  let n := c.toNat
  if n < 128 then [n]
  else if n < 2048 then [192 + n / 64, 128 + n % 64]
  else if n < 65536 then [224 + n / 4096, 128 + n / 64 % 64, 128 + n % 64]
  else [240 + n / 262144, 128 + n / 4096 % 64, 128 + n / 64 % 64, 128 + n % 64]

/-- The UTF-8 bytes of a string (the on-disk content of a text file). -/
def strBytes (s : String) : List Nat := (s.data.map utf8Enc).flatten

example : md5Hex (strBytes "hi") = "49f68a5c8493ec2c0bf489821c21fc3b" := by decide

example : md5Hex (strBytes "") = "d41d8cd98f00b204e9800998ecf8427e" := by decide

example : md5Hex (strBytes "abc") = "900150983cd24fb0d6963f7d28e17f72" := by decide

/-! ### Filesystem model

A snapshot of the directory tree: a finite list of regular files, each an
absolute path (list of name components) and a state: readable text content,
or unreadable (any condition making open or read raise). Directories exist
implicitly as proper ancestors of listed files. -/

abbrev Path := List String

inductive FileState where
  | content (text : String)
  | unreadable
deriving DecidableEq

abbrev FS := List (Path × FileState)

def lookupFile (fs : FS) (p : Path) : Option FileState :=
  match fs.find? (fun e => e.1 == p) with
  | some e => some e.2
  | none => none

/-- p is a proper initial segment of q (p a strict ancestor directory). -/
def properLead : Path → Path → Bool
  | [], [] => false
  | [], _ :: _ => true
  | _ :: _, [] => false
  | a :: as, b :: bs => a == b && properLead as bs

def isFileIn (fs : FS) (p : Path) : Bool := fs.any (fun e => e.1 == p)

def isDirIn (fs : FS) (p : Path) : Bool := fs.any (fun e => properLead p e.1)

/-- Path.exists(): true for regular files and for directories. -/
def pathExists (fs : FS) (p : Path) : Bool := isFileIn fs p || isDirIn fs p

/-- compute_md5 (md5check.py lines 42-51): open the file, hash its bytes in
chunks, return the hexdigest; every failure (unreadable file, directory,
vanished file) is caught and becomes None. -/
def computeMd5 (fs : FS) (p : Path) : Option String :=
  match lookupFile fs p with
  | some (.content text) => some (md5Hex (strBytes text))
  | some .unreadable => none
  | none => none

/-- Split a character list on a separator character, keeping empty pieces,
as str.split of Python and splitOn of Lean do. -/
def splitOnChar (sep : Char) : List Char → List (List Char)
  | [] => [[]]
  | c :: cs =>
      let r := splitOnChar sep cs
      if c == sep then [] :: r
      else
        match r with
        | first :: rest => (c :: first) :: rest
        | [] => [[c]]

/-- str.lower / Char.toLower for the ASCII range. -/
def lowerChar (c : Char) : Char :=
  if 'A' ≤ c && c ≤ 'Z' then Char.ofNat (c.toNat + 32) else c

def lowerStr (s : String) : String := String.mk (s.data.map lowerChar)

/-- Lexicographic string comparison by code point, as Python compares. -/
def ltChars : List Char → List Char → Bool
  | [], [] => false
  | [], _ :: _ => true
  | _ :: _, [] => false
  | a :: as, b :: bs => a < b || (a == b && ltChars as bs)

def ltStr (s t : String) : Bool := ltChars s.data t.data

/-- Normalization done by Path.resolve(): "." and empty components are
dropped and ".." removes the preceding component, stopping at the root. -/
def normalizeInto (acc : Path) : List String → Path
  | [] => acc
  | c :: rest =>
      if c == "." || c == "" then normalizeInto acc rest
      else if c == ".." then normalizeInto acc.dropLast rest
      else normalizeInto (acc ++ [c]) rest

/-- (base_dir / filename).resolve() (md5check.py line 89): split the
filename on "/", join onto the base directory (or onto the filesystem root
when the filename is absolute) and normalize. -/
def resolvePath (base : Path) (filename : String) : Path :=
  let isAbs := match filename.data with | '/' :: _ => true | _ => false
  normalizeInto (if isAbs then [] else base)
    ((splitOnChar '/' filename.data).map String.mk)

/-- The manifest file's own containing directory (md5file.parent, line 64). -/
def dirOf (p : Path) : Path := p.dropLast

/-! ### The manifest line grammar (md5check.py lines 74-86) -/

/-- The characters the \s class of the Python regex (and str.strip) treats
as whitespace, for ASCII text. -/
def isPySpace (c : Char) : Bool :=
  c == ' ' || c == '\t' || c == '\n' || c == '\r' || c == '\x0b' || c == '\x0c'

/-- The [A-Fa-f0-9] character class. -/
def isHexChar (c : Char) : Bool :=
  ('0' ≤ c && c ≤ '9') || ('a' ≤ c && c ≤ 'f') || ('A' ≤ c && c ≤ 'F')

def lstripChars (cs : List Char) : List Char := cs.dropWhile isPySpace

def rstripChars (cs : List Char) : List Char := (cs.reverse.dropWhile isPySpace).reverse

def stripChars (cs : List Char) : List Char := rstripChars (lstripChars cs)

/-- re.match of the entry regex (32 hex characters, two-or-more whitespace,
then a non-empty greedy remainder, anchored at the end) on a newline-free
line, as Python matches it: the separator is the leading whitespace run of
the tail, backtracked just enough to leave at least one character for
group 2. Returns (group 1, group 2). -/
def matchEntry (cs : List Char) : Option (List Char × List Char) :=
  if (cs.take 32).length = 32 ∧ (cs.take 32).all isHexChar = true ∧
      2 ≤ min ((cs.drop 32).takeWhile isPySpace).length ((cs.drop 32).length - 1) then
    some (cs.take 32,
      (cs.drop 32).drop
        (min ((cs.drop 32).takeWhile isPySpace).length ((cs.drop 32).length - 1)))
  else none

/-- startswith of the comment check on line 77. -/
def startsHash : List Char → Bool
  | [] => false
  | c :: _ => c == '#'

/-- One iteration of the line loop (lines 76-86): skip blank lines and
comment lines, try the regex, lowercase group 1 and strip group 2. -/
def parseLineChars (line : List Char) : Option (List Char × List Char) :=
  if (stripChars line).isEmpty || startsHash (lstripChars line) then
    none
  else
    (matchEntry line).map (fun g => (g.1.map lowerChar, stripChars g.2))

def parseLine (line : String) : Option (String × String) :=
  (parseLineChars line.data).map (fun g => (String.mk g.1, String.mk g.2))

/-! ### Per-entry classification and per-manifest aggregation -/

inductive Outcome where
  | ok
  | failMismatch (expected actual : String)
  | failCompute (expected : String)
  | notFound
deriving DecidableEq

/-- Classification of one parsed entry (lines 89-109): resolve the filename
against the manifest directory; missing path is NOT FOUND; a checksum
computation failure is a FAIL with a compute-error detail; otherwise OK
exactly when the lowercased computed digest equals the expected digest. -/
def classifyEntry (fs : FS) (baseDir : Path) (expected filename : String) :
    Outcome :=
  if pathExists fs (resolvePath baseDir filename) then
    match computeMd5 fs (resolvePath baseDir filename) with
    | none => .failCompute expected
    | some actual =>
        if lowerStr actual == expected then .ok
        else .failMismatch expected actual
  else .notFound

structure Tally where
  total : Nat
  correctos : Nat
  incorrectos : Nat
  noEncontrados : Nat
deriving DecidableEq

/-- One loop iteration's counter updates (lines 87-109): total always, and
exactly one of the three outcome counters. -/
def tallyStep (t : Tally) (o : Outcome) : Tally :=
  let t1 : Tally := { t with total := t.total + 1 }
  match o with
  | .ok => { t1 with correctos := t1.correctos + 1 }
  | .failMismatch _ _ => { t1 with incorrectos := t1.incorrectos + 1 }
  | .failCompute _ => { t1 with incorrectos := t1.incorrectos + 1 }
  | .notFound => { t1 with noEncontrados := t1.noEncontrados + 1 }

/-- str.splitlines() for text whose only line break is the newline
character: split on newlines, no empty final line for a trailing newline. -/
def splitLines (s : String) : List String :=
  let parts := (splitOnChar '\n' s.data).map String.mk
  if parts.getLast? == some "" then parts.dropLast else parts

/-- The parsed entries of a manifest's lines, in order. -/
def entriesOfLines (lines : List String) : List (String × String) :=
  lines.filterMap parseLine

/-- The outcomes of a manifest file's entries, in entry order. -/
def manifestOutcomes (fs : FS) (md5file : Path) (lines : List String) :
    List Outcome :=
  (entriesOfLines lines).map (fun e => classifyEntry fs (dirOf md5file) e.1 e.2)

def manifestTally (fs : FS) (md5file : Path) (lines : List String) : Tally :=
  (manifestOutcomes fs md5file lines).foldl tallyStep ⟨0, 0, 0, 0⟩

/-- process_md5_file (lines 59-119): read the manifest (a bare return, that
is None, when it cannot be read), parse and classify every line, and return
had_issue: whether any entry was incorrect or not found. -/
def processMd5File (fs : FS) (md5file : Path) : Option Bool :=
  match lookupFile fs md5file with
  | some (.content text) =>
      some (decide (0 < (manifestTally fs md5file (splitLines text)).incorrectos) ||
        decide (0 < (manifestTally fs md5file (splitLines text)).noEncontrados))
  | _ => none

/-! ### Manifest discovery and the verifier entry point -/

/-- fnmatch-style glob on a file name with * and ? wildcards, with explicit
fuel so that it evaluates by kernel reduction. -/
def globMatchF : Nat → List Char → List Char → Bool
  | 0, _, _ => false
  | _ + 1, [], [] => true
  | fuel + 1, '*' :: ps, [] => globMatchF fuel ps []
  | fuel + 1, '*' :: ps, c :: cs =>
      globMatchF fuel ps (c :: cs) || globMatchF fuel ('*' :: ps) cs
  | _ + 1, '?' :: _, [] => false
  | fuel + 1, '?' :: _ps, _c :: cs => globMatchF fuel _ps cs
  | _ + 1, _ :: _, [] => false
  | fuel + 1, p :: ps, c :: cs => p == c && globMatchF fuel ps cs
  | _ + 1, [], _ :: _ => false

def globMatch (p name : List Char) : Bool :=
  globMatchF (p.length + name.length + 1) p name

def joinPath (p : Path) : String := String.intercalate "/" p

/-- Stable insertion sort by path string, as sorted() orders Path values. -/
def insertPath (x : Path) : List Path → List Path
  | [] => [x]
  | y :: ys => if ltStr (joinPath x) (joinPath y) then x :: y :: ys else y :: insertPath x ys

def sortPaths : List Path → List Path
  | [] => []
  | x :: xs => insertPath x (sortPaths xs)

/-- find_md5sum_files (lines 54-56): every file under root whose name
matches the pattern, sorted by path; root.rglob yields an empty sequence
when root does not exist on disk. -/
def findMd5sumFiles (fs : FS) (root : Path) (pattern : String) : List Path :=
  sortPaths ((fs.filter (fun e =>
    properLead root e.1 && globMatch pattern.data (e.1.getLastD "").data)).map
      (fun e => e.1))

/-- had_issue of main (lines 143-147): OR of truthy process_md5_file
results; the None of an unreadable manifest is falsy. -/
def verifierHadIssue (fs : FS) (files : List Path) : Bool :=
  files.any (fun f => processMd5File fs f == some true)

/-- main of md5check.py (lines 122-154): discover manifests (an empty
discovery returns 0 at once), process each, and exit 2 exactly when
--fail-exit is set and some manifest had an issue. -/
def verifierExit (fs : FS) (root : Path) (pattern : String) (failExit : Bool) :
    Nat :=
  if (findMd5sumFiles fs root pattern).isEmpty then 0
  else if failExit && verifierHadIssue fs (findMd5sumFiles fs root pattern) then 2
  else 0

/-! ### The generator (md5_recursive.py) -/

/-- iter_files (lines 46-57): every regular file strictly under root, in
walk order (modelled by the listing order of the snapshot). -/
def iterFiles (fs : FS) (root : Path) : List Path :=
  (fs.filter (fun e => properLead root e.1)).map (fun e => e.1)

/-- collect_hashes (lines 60-65): hash every discovered file. -/
def collectHashes (fs : FS) (root : Path) : List (Path × Option String) :=
  (iterFiles fs root).map (fun p => (p, computeMd5 fs p))

/-- The path rendering of line 93: absolute, or relative to the root. -/
def displayPath (absolute : Bool) (root : Path) (p : Path) : String :=
  if absolute then "/" ++ joinPath p else joinPath (p.drop root.length)

def zeros32 : String := "00000000000000000000000000000000"

/-- One output line (lines 94-98): digest, two spaces, path; the sentinel
line with the error marker when the digest is absent. -/
def genLine (absolute : Bool) (root : Path) (r : Path × Option String) :
    String :=
  match r.2 with
  | some digest => digest ++ "  " ++ displayPath absolute root r.1
  | none => zeros32 ++ "  " ++ displayPath absolute root r.1 ++ "  # ERROR"

def insertRecord (x : Path × Option String) :
    List (Path × Option String) → List (Path × Option String)
  | [] => [x]
  | y :: ys =>
      if ltStr (joinPath x.1) (joinPath y.1) then x :: y :: ys
      else y :: insertRecord x ys

def sortRecords : List (Path × Option String) → List (Path × Option String)
  | [] => []
  | x :: xs => insertRecord x (sortRecords xs)

structure GenResult where
  exitCode : Nat
  outLines : List String
  printed : Nat
  failed : Nat
deriving DecidableEq

/-- main of md5_recursive.py (lines 68-107): exit 2 before any output when
the root does not exist; otherwise hash every file, sort when requested,
emit one line per record and count printed hashes and errors. -/
def generatorRun (fs : FS) (root : Path) (absolute sortFlag : Bool) :
    GenResult :=
  if !pathExists fs root then ⟨2, [], 0, 0⟩
  else
    let entries := collectHashes fs root
    let entries2 := if sortFlag then sortRecords entries else entries
    ⟨0, entries2.map (genLine absolute root),
      (entries2.filter (fun r => r.2.isSome)).length,
      (entries2.filter (fun r => r.2.isNone)).length⟩

/-! ### Outcome predicates and the declarative line grammar -/

def isOk : Outcome → Bool
  | .ok => true
  | _ => false

def isFail : Outcome → Bool
  | .failMismatch _ _ => true
  | .failCompute _ => true
  | _ => false

def isNotFound : Outcome → Bool
  | .notFound => true
  | _ => false

/-- The expected-digest field a raw regex group 1 yields (line 85). -/
def entryExpected (g1 : List Char) : String := String.mk (g1.map lowerChar)

/-- The filename field a raw regex group 2 yields (line 86). -/
def entryFilename (g2 : List Char) : String := String.mk (stripChars g2)

/-- The entry pattern stated declaratively, following the spec's words:
exactly 32 hexadecimal characters, then two or more whitespace characters,
then a non-empty remainder. To be compared with the matcher embedded from
the source regex. -/
def declEntryShape (cs : List Char) : Prop :=
  ∃ h s r, cs = h ++ s ++ r ∧ h.length = 32 ∧ h.all isHexChar = true ∧
    2 ≤ s.length ∧ s.all isPySpace = true ∧ r ≠ []

/-- The filesystem of the end-to-end scenario of the spec: a root t holding
a.txt with content hi and a manifest sub/md5sum_check.txt whose single
entry references ../a.txt. -/
def scenarioFS : FS :=
  [(["t", "a.txt"], .content "hi"),
   (["t", "sub", "md5sum_check.txt"],
     .content "49f68a5c8493ec2c0bf489821c21fc3b  ../a.txt\n")]

/-! ### Scratch checks of the end-to-end scenario and the grammar -/

example : findMd5sumFiles scenarioFS ["t"] "md5sum*.txt" =
    [["t", "sub", "md5sum_check.txt"]] := by decide

example : manifestOutcomes scenarioFS ["t", "sub", "md5sum_check.txt"]
    (splitLines "49f68a5c8493ec2c0bf489821c21fc3b  ../a.txt\n") = [.ok] := by decide

example : manifestTally scenarioFS ["t", "sub", "md5sum_check.txt"]
    (splitLines "49f68a5c8493ec2c0bf489821c21fc3b  ../a.txt\n") = ⟨1, 1, 0, 0⟩ := by
  decide

example : verifierExit scenarioFS ["t"] "md5sum*.txt" true = 0 := by decide

example : parseLine "d41d8cd98f00b204e9800998ecf8427e  my file.txt" =
    some ("d41d8cd98f00b204e9800998ecf8427e", "my file.txt") := by decide

example : parseLine "d41d8cd98f00b204e9800998ecf8427e single.txt" = none := by decide

example : parseLine "d41d8cd98f00b204e9800998ecf8427e  " = none := by decide

example : parseLine "d41d8cd98f00b204e9800998ecf8427e   " =
    some ("d41d8cd98f00b204e9800998ecf8427e", "") := by decide

example : parseLine "D41D8CD98F00B204E9800998ECF8427E\t\tX" =
    some ("d41d8cd98f00b204e9800998ecf8427e", "X") := by decide

example : parseLine "# d41d8cd98f00b204e9800998ecf8427e  x" = none := by decide

example : parseLine "   " = none := by decide

example : parseLine "d41d8cd98f00b204e9800998ecf8427e" = none := by decide

/-! ### Counting lemmas -/

theorem foldl_tallyStep (os : List Outcome) (t : Tally) :
    os.foldl tallyStep t =
      ⟨t.total + os.length, t.correctos + (os.filter isOk).length,
       t.incorrectos + (os.filter isFail).length,
       t.noEncontrados + (os.filter isNotFound).length⟩ := by
  induction os generalizing t with
  | nil => simp
  | cons o os ih =>
    rw [List.foldl_cons, ih]
    cases o <;>
      simp [tallyStep, List.filter_cons, isOk, isFail, isNotFound,
        Tally.mk.injEq] <;>
      omega

theorem manifestTally_counts (fs : FS) (mf : Path) (lines : List String) :
    manifestTally fs mf lines =
      ⟨(manifestOutcomes fs mf lines).length,
       ((manifestOutcomes fs mf lines).filter isOk).length,
       ((manifestOutcomes fs mf lines).filter isFail).length,
       ((manifestOutcomes fs mf lines).filter isNotFound).length⟩ := by
  unfold manifestTally
  rw [foldl_tallyStep]
  simp

theorem outcome_filter_partition (os : List Outcome) :
    (os.filter isOk).length + (os.filter isFail).length +
      (os.filter isNotFound).length = os.length := by
  induction os with
  | nil => rfl
  | cons o os ih =>
    cases o <;> simp [List.filter_cons, isOk, isFail, isNotFound] <;> omega

theorem decide_pos_or_beq (a b : Nat) :
    (decide (0 < a) || decide (0 < b)) = !(a == 0 && b == 0) := by
  rcases Nat.eq_zero_or_pos a with rfl | ha <;>
    rcases Nat.eq_zero_or_pos b with rfl | hb <;>
    simp_all [Nat.pos_iff_ne_zero]

theorem filter_isSome_isNone_length (l : List (Path × Option String)) :
    (l.filter (fun r => r.2.isSome)).length +
      (l.filter (fun r => r.2.isNone)).length = l.length := by
  induction l with
  | nil => rfl
  | cons r l ih =>
    rcases r with ⟨p, _ | d⟩ <;> simp [List.filter_cons] <;> omega

/-! ### Claim theorems -/

/-- C5: every parsed manifest entry yields exactly one verification outcome
(so total = ok + fail + notFound), outcomes are produced in entry order,
and the digest comparison is case-insensitive. -/
theorem claimC5_one_outcome_per_entry :
    (∀ fs mf lines,
      (manifestOutcomes fs mf lines).length = (entriesOfLines lines).length) ∧
    (∀ fs mf lines,
      (manifestTally fs mf lines).total =
        (manifestTally fs mf lines).correctos +
        (manifestTally fs mf lines).incorrectos +
        (manifestTally fs mf lines).noEncontrados) ∧
    (∀ fs mf lines (i : Nat),
      (manifestOutcomes fs mf lines)[i]? =
        ((entriesOfLines lines)[i]?).map
          (fun e => classifyEntry fs (dirOf mf) e.1 e.2)) ∧
    (∀ fs baseDir fn g a,
      pathExists fs (resolvePath baseDir fn) = true →
      computeMd5 fs (resolvePath baseDir fn) = some a →
      (classifyEntry fs baseDir (lowerStr g) fn = .ok ↔ lowerStr a = lowerStr g)) := by
  refine ⟨?_, ?_, ?_, ?_⟩
  · intro fs mf lines
    simp [manifestOutcomes]
  · intro fs mf lines
    rw [manifestTally_counts]
    exact (outcome_filter_partition _).symm
  · intro fs mf lines i
    simp [manifestOutcomes, List.getElem?_map]
  · intro fs baseDir fn g a hex hcomp
    unfold classifyEntry
    rw [hex, hcomp]
    by_cases h : lowerStr a = lowerStr g
    · simp [h]
    · simp [h]

/-- C4: a manifest run is clean exactly when its fail and not-found counts
are zero; the process-wide flag is the OR of not-clean over processed
manifests; exit is 0 unless fail-exit is set and some manifest was not
clean, in which case it is 2. -/
theorem claimC4_clean_flag_exit :
    (∀ fs mf text, lookupFile fs mf = some (.content text) →
      processMd5File fs mf =
        some (!((manifestTally fs mf (splitLines text)).incorrectos == 0 &&
                (manifestTally fs mf (splitLines text)).noEncontrados == 0))) ∧
    (∀ fs root pat failExit,
      verifierExit fs root pat failExit = 0 ∨
      verifierExit fs root pat failExit = 2) ∧
    (∀ fs root pat failExit,
      verifierExit fs root pat failExit = 2 ↔
        failExit = true ∧ ∃ f ∈ findMd5sumFiles fs root pat,
          processMd5File fs f = some true) := by
  refine ⟨?_, ?_, ?_⟩
  · intro fs mf text h
    unfold processMd5File
    rw [h]
    exact congrArg some (decide_pos_or_beq _ _)
  · intro fs root pat failExit
    unfold verifierExit
    split
    · left; rfl
    · split
      · right; rfl
      · left; rfl
  · intro fs root pat failExit
    unfold verifierExit verifierHadIssue
    split
    · rename_i hemp
      rw [List.isEmpty_iff] at hemp
      constructor
      · intro h0
        exact absurd h0 (by decide)
      · rintro ⟨hfe, f, hf, hp⟩
        rw [hemp] at hf
        exact absurd hf (List.not_mem_nil f)
    · split
      · rename_i hcond
        rw [Bool.and_eq_true, List.any_eq_true] at hcond
        obtain ⟨hfe, f, hf, hp⟩ := hcond
        rw [beq_iff_eq] at hp
        exact ⟨fun _ => ⟨hfe, f, hf, hp⟩, fun _ => rfl⟩
      · rename_i hcond
        constructor
        · intro h0
          exact absurd h0 (by decide)
        · rintro ⟨hfe, f, hf, hp⟩
          refine absurd ?_ hcond
          rw [Bool.and_eq_true, List.any_eq_true]
          exact ⟨hfe, f, hf, by rw [beq_iff_eq]; exact hp⟩

/-- C10: an unreadable manifest is reported as None, contributes no entries
or counts, does not set the process-wide flag, and processing continues
with the other manifests; when every discovered manifest is unreadable the
exit code is 0 even under fail-exit. -/
theorem claimC10_unreadable_manifest :
    (∀ fs mf, lookupFile fs mf = some .unreadable → processMd5File fs mf = none) ∧
    (∀ fs fs1 fs2 f, processMd5File fs f = none →
      verifierHadIssue fs (fs1 ++ f :: fs2) = verifierHadIssue fs (fs1 ++ fs2)) ∧
    (∀ fs root pat,
      (∀ f ∈ findMd5sumFiles fs root pat, processMd5File fs f = none) →
      verifierExit fs root pat true = 0) := by
  refine ⟨?_, ?_, ?_⟩
  · intro fs mf h
    unfold processMd5File
    rw [h]
  · intro fs fs1 fs2 f h
    unfold verifierHadIssue
    simp [List.any_append, List.any_cons, h]
  · intro fs root pat h
    unfold verifierExit
    by_cases he : (findMd5sumFiles fs root pat).isEmpty
    · simp [he]
    · have : verifierHadIssue fs (findMd5sumFiles fs root pat) = false := by
        unfold verifierHadIssue
        rw [List.any_eq_false]
        intro f hf
        simp [h f hf]
      simp [he, this]

/-- C6: each generator record emits one line, digest then two spaces then
path; an absent digest emits the 32-zero sentinel, two spaces, the path and
an error marker, is counted in the error total and not the success total,
and still appears in the output. -/
theorem claimC6_generator_output :
    (∀ absolute root p d, genLine absolute root (p, some d) =
        d ++ "  " ++ displayPath absolute root p) ∧
    (∀ absolute root p, genLine absolute root (p, none) =
        zeros32 ++ "  " ++ displayPath absolute root p ++ "  # ERROR") ∧
    zeros32.data = List.replicate 32 '0' ∧
    (∀ fs root absolute sortFlag, pathExists fs root = true →
      (generatorRun fs root absolute sortFlag).outLines =
        (if sortFlag then sortRecords (collectHashes fs root)
         else collectHashes fs root).map (genLine absolute root) ∧
      (generatorRun fs root absolute sortFlag).failed =
        ((if sortFlag then sortRecords (collectHashes fs root)
          else collectHashes fs root).filter (fun r => r.2.isNone)).length ∧
      (generatorRun fs root absolute sortFlag).printed +
        (generatorRun fs root absolute sortFlag).failed =
        (generatorRun fs root absolute sortFlag).outLines.length) := by
  refine ⟨fun _ _ _ _ => rfl, fun _ _ _ => rfl, by decide, ?_⟩
  intro fs root absolute sortFlag h
  unfold generatorRun
  rw [h]
  rw [show (!true) = false from rfl, if_neg (by decide : ¬ false = true)]
  refine ⟨rfl, rfl, ?_⟩
  rw [List.length_map]
  exact filter_isSome_isNone_length _

/-- C8 counterexample: a filesystem in which the verifier's search root t
does not exist; the run does not abort with a non-zero code but exits 0. -/
theorem claimC8_counterexample :
    pathExists [(["u", "x.txt"], FileState.content "hello")] ["t"] = false ∧
    verifierExit [(["u", "x.txt"], FileState.content "hello")] ["t"]
      "md5sum*.txt" true = 0 := by
  constructor <;> decide

/-- C8 amended: when its search root does not exist the verifier discovers
zero manifest files and returns 0 (the benign no-op path); it is the
generator that aborts with distinguished exit code 2, and no output, when
its root does not exist. -/
theorem claimC8_amended_missing_root :
    (∀ fs root pat failExit, pathExists fs root = false →
      findMd5sumFiles fs root pat = [] ∧
      verifierExit fs root pat failExit = 0) ∧
    (∀ fs root absolute sortFlag, pathExists fs root = false →
      generatorRun fs root absolute sortFlag = ⟨2, [], 0, 0⟩) := by
  constructor
  · intro fs root pat failExit h
    have hd : isDirIn fs root = false := by
      unfold pathExists at h
      exact (Bool.or_eq_false_iff.mp h).2
    have hfiles : findMd5sumFiles fs root pat = [] := by
      unfold findMd5sumFiles
      have : fs.filter (fun e =>
          properLead root e.1 && globMatch pat.data (e.1.getLastD "").data) = [] := by
        rw [List.filter_eq_nil_iff]
        intro e he
        have := List.any_eq_false.mp hd e he
        simp only [Bool.and_eq_true, not_and] at this ⊢
        intro hp
        exact absurd hp this
      rw [this]
      rfl
    refine ⟨hfiles, ?_⟩
    unfold verifierExit
    rw [hfiles]
    rfl
  · intro fs root absolute sortFlag h
    unfold generatorRun
    rw [h]
    rfl

/-- C2: a manifest entry's filename is resolved against the manifest file's
own directory; in the spec's end-to-end scenario the entry ../a.txt of
t/sub/md5sum_check.txt resolves to t/a.txt, is classified OK, the summary
is total 1, ok 1, fail 0, notFound 0, and the exit code is 0. -/
theorem claimC2_resolution_base :
    (∀ fs mf lines, manifestOutcomes fs mf lines =
      (entriesOfLines lines).map
        (fun e => classifyEntry fs (dirOf mf) e.1 e.2)) ∧
    resolvePath ["t", "sub"] "../a.txt" = ["t", "a.txt"] ∧
    manifestOutcomes scenarioFS ["t", "sub", "md5sum_check.txt"]
      (splitLines "49f68a5c8493ec2c0bf489821c21fc3b  ../a.txt\n") = [.ok] ∧
    manifestTally scenarioFS ["t", "sub", "md5sum_check.txt"]
      (splitLines "49f68a5c8493ec2c0bf489821c21fc3b  ../a.txt\n") = ⟨1, 1, 0, 0⟩ ∧
    processMd5File scenarioFS ["t", "sub", "md5sum_check.txt"] = some false ∧
    (∀ failExit, verifierExit scenarioFS ["t"] "md5sum*.txt" failExit = 0) := by
  refine ⟨fun _ _ _ => rfl, by decide, by decide, by decide, by decide, fun b => ?_⟩
  cases b <;> decide

/-! ### Grammar lemmas -/

theorem hexChar_not_space (c : Char) (h : isHexChar c = true) :
    isPySpace c = false := by
  by_contra hsp
  rw [Bool.not_eq_false] at hsp
  simp only [isPySpace, Bool.or_eq_true, beq_iff_eq] at hsp
  rcases hsp with ((((rfl | rfl) | rfl) | rfl) | rfl) | rfl <;>
    exact absurd h (by decide)

theorem hexChar_ne_hash (c : Char) (h : isHexChar c = true) :
    (c == '#') = false := by
  by_contra hh
  rw [Bool.not_eq_false, beq_iff_eq] at hh
  subst hh
  exact absurd h (by decide)

theorem matchEntry_isSome_iff (cs : List Char) :
    (matchEntry cs).isSome = true ↔
      ((cs.take 32).length = 32 ∧ (cs.take 32).all isHexChar = true ∧
        2 ≤ min ((cs.drop 32).takeWhile isPySpace).length
          ((cs.drop 32).length - 1)) := by
  unfold matchEntry
  split
  · rename_i hcond
    exact iff_of_true rfl hcond
  · rename_i hcond
    exact iff_of_false (by simp) hcond

theorem matchEntry_groups (cs g1 g2 : List Char)
    (h : matchEntry cs = some (g1, g2)) :
    g1 = cs.take 32 ∧
    g2 = (cs.drop 32).drop
      (min ((cs.drop 32).takeWhile isPySpace).length ((cs.drop 32).length - 1)) ∧
    (cs.take 32).length = 32 ∧ (cs.take 32).all isHexChar = true ∧
    2 ≤ min ((cs.drop 32).takeWhile isPySpace).length ((cs.drop 32).length - 1) := by
  unfold matchEntry at h
  split at h
  · rename_i hcond
    rw [Option.some.injEq, Prod.mk.injEq] at h
    exact ⟨h.1.symm, h.2.symm, hcond⟩
  · exact absurd h (by simp)

theorem parse_of_match (cs g1 g2 : List Char) (h : matchEntry cs = some (g1, g2)) :
    parseLineChars cs = some (g1.map lowerChar, stripChars g2) := by
  obtain ⟨hg1, hg2, hlen, hhex, hj⟩ := matchEntry_groups cs g1 g2 h
  have hcs : 32 ≤ cs.length := by
    rw [List.length_take] at hlen
    omega
  obtain ⟨c, cs', rfl⟩ : ∃ c cs', cs = c :: cs' := by
    cases cs with
    | nil => simp at hcs
    | cons c cs' => exact ⟨c, cs', rfl⟩
  have hchex : isHexChar c = true := by
    rw [show (32 : Nat) = 31 + 1 from rfl, List.take_succ_cons, List.all_cons,
      Bool.and_eq_true] at hhex
    exact hhex.1
  have hcsp : isPySpace c = false := hexChar_not_space c hchex
  have hlstrip : lstripChars (c :: cs') = c :: cs' := by
    unfold lstripChars
    rw [List.dropWhile_cons, hcsp]
    simp
  have hstrip_ne : stripChars (c :: cs') ≠ [] := by
    unfold stripChars rstripChars
    rw [hlstrip]
    intro heq
    rw [List.reverse_eq_nil_iff, List.dropWhile_eq_nil_iff] at heq
    have := heq c (by simp)
    rw [hcsp] at this
    exact Bool.noConfusion this
  have h1 : (stripChars (c :: cs')).isEmpty = false := by
    cases hs : stripChars (c :: cs') with
    | nil => exact absurd hs hstrip_ne
    | cons a l => rfl
  have h2 : startsHash (c :: cs') = false := by
    simp only [startsHash]
    exact hexChar_ne_hash c hchex
  unfold parseLineChars
  rw [hlstrip, h1, h2, if_neg (by decide : ¬ ((false || false) = true)), h]
  rfl

theorem all_take_of_le_takeWhile (p : Char → Bool) (l : List Char) (n : Nat)
    (h : n ≤ (l.takeWhile p).length) : (l.take n).all p = true := by
  induction l generalizing n with
  | nil => simp
  | cons c l ih =>
    rw [List.takeWhile_cons] at h
    by_cases hp : p c = true
    · rw [if_pos hp] at h
      cases n with
      | zero => simp
      | succ n =>
        rw [List.take_succ_cons, List.all_cons, hp, Bool.true_and]
        rw [List.length_cons] at h
        exact ih n (by omega)
    · rw [if_neg hp] at h
      simp only [List.length_nil, Nat.le_zero] at h
      subst h
      simp
theorem takeWhile_append_all (p : Char → Bool) (s r : List Char)
    (h : s.all p = true) : (s ++ r).takeWhile p = s ++ r.takeWhile p := by
  induction s with
  | nil => simp
  | cons c s ih =>
    rw [List.all_cons, Bool.and_eq_true] at h
    rw [List.cons_append, List.takeWhile_cons, if_pos h.1, ih h.2]
    rfl

/-- C1: each parsed entry is classified in order: a missing resolved path is
NOT FOUND; a checksum-computation failure is a FAIL with a compute-error
detail counted among failures and never among not-found; otherwise OK
exactly when the computed and expected digests, both lowercased, are equal,
and FAIL carrying both values otherwise. -/
theorem claimC1_entry_classification :
    ∀ fs baseDir (line g1 g2 : List Char) (t : Tally) (a : String),
      matchEntry line = some (g1, g2) →
      parseLine (String.mk line) = some (entryExpected g1, entryFilename g2) ∧
      entryExpected g1 = lowerStr (String.mk g1) ∧
      (pathExists fs (resolvePath baseDir (entryFilename g2)) = false →
        classifyEntry fs baseDir (entryExpected g1) (entryFilename g2) = .notFound) ∧
      (pathExists fs (resolvePath baseDir (entryFilename g2)) = true →
        computeMd5 fs (resolvePath baseDir (entryFilename g2)) = none →
        classifyEntry fs baseDir (entryExpected g1) (entryFilename g2) =
          .failCompute (entryExpected g1) ∧
        (tallyStep t (.failCompute (entryExpected g1))).incorrectos =
          t.incorrectos + 1 ∧
        (tallyStep t (.failCompute (entryExpected g1))).noEncontrados =
          t.noEncontrados) ∧
      (pathExists fs (resolvePath baseDir (entryFilename g2)) = true →
        computeMd5 fs (resolvePath baseDir (entryFilename g2)) = some a →
        (classifyEntry fs baseDir (entryExpected g1) (entryFilename g2) = .ok ↔
          lowerStr a = entryExpected g1) ∧
        (lowerStr a ≠ entryExpected g1 →
          classifyEntry fs baseDir (entryExpected g1) (entryFilename g2) =
            .failMismatch (entryExpected g1) a)) := by
  intro fs baseDir line g1 g2 t a h
  have hp := parse_of_match line g1 g2 h
  refine ⟨?_, rfl, ?_, ?_, ?_⟩
  · unfold parseLine
    rw [show (String.mk line).data = line from rfl, hp]
    rfl
  · intro hex
    unfold classifyEntry
    rw [hex]
    simp
  · intro hex hcomp
    refine ⟨?_, rfl, rfl⟩
    unfold classifyEntry
    rw [hex, hcomp]
    rfl
  · intro hex hcomp
    unfold classifyEntry
    rw [hex, hcomp]
    constructor
    · by_cases hl : lowerStr a = entryExpected g1
      · simp [hl]
      · simp [hl]
    · intro hne
      simp [hne]

theorem parseLineChars_isSome_iff_shape (line : List Char) :
    (parseLineChars line).isSome = true ↔ declEntryShape line := by
  constructor
  · intro hs
    have hm : (matchEntry line).isSome = true := by
      unfold parseLineChars at hs
      split at hs
      · simp at hs
      · cases hmm : matchEntry line with
        | none => rw [hmm] at hs; simp at hs
        | some g => simp
    rw [matchEntry_isSome_iff] at hm
    obtain ⟨hlen, hhex, hj⟩ := hm
    refine ⟨line.take 32,
      (line.drop 32).take
        (min ((line.drop 32).takeWhile isPySpace).length ((line.drop 32).length - 1)),
      (line.drop 32).drop
        (min ((line.drop 32).takeWhile isPySpace).length ((line.drop 32).length - 1)),
      ?_, hlen, hhex, ?_, ?_, ?_⟩
    · rw [List.append_assoc, List.take_append_drop, List.take_append_drop]
    · rw [List.length_take]
      omega
    · exact all_take_of_le_takeWhile _ _ _ (Nat.min_le_left _ _)
    · intro hr
      have hlr := congrArg List.length hr
      rw [List.length_drop] at hlr
      simp only [List.length_nil] at hlr
      omega
  · rintro ⟨h, s, r, rfl, hh32, hhex, hs2, hsp, hr⟩
    have hrpos : 1 ≤ r.length := by
      cases r with
      | nil => exact absurd rfl hr
      | cons a l => simp
    rw [List.append_assoc]
    have htake : (h ++ (s ++ r)).take 32 = h := List.take_left' hh32
    have hdrop : (h ++ (s ++ r)).drop 32 = s ++ r := List.drop_left' hh32
    have hm : (matchEntry (h ++ (s ++ r))).isSome = true := by
      rw [matchEntry_isSome_iff, htake, hdrop]
      refine ⟨hh32, hhex, ?_⟩
      rw [takeWhile_append_all _ _ _ hsp, List.length_append, List.length_append]
      omega
    obtain ⟨⟨g1, g2⟩, hg⟩ := Option.isSome_iff_exists.mp hm
    rw [parse_of_match _ _ _ hg]
    rfl

theorem parseLine_isSome_iff_shape (line : String) :
    (parseLine line).isSome = true ↔ declEntryShape line.data := by
  unfold parseLine
  rw [← parseLineChars_isSome_iff_shape]
  cases parseLineChars line.data <;> simp

/-- C3: a line is treated as an entry exactly when it matches the pattern of
32 hexadecimal characters, two or more whitespace characters and a
non-empty remainder; every non-matching line is silently ignored and
excluded from the totals, so a manifest of only malformed lines yields zero
total entries. -/
theorem claimC3_entry_pattern :
    (∀ line : String, (∀ c ∈ line.data, c ≠ '\n') →
      ((parseLine line).isSome = true ↔ declEntryShape line.data)) ∧
    (∀ fs mf lines,
      (∀ l ∈ lines, (∀ c ∈ l.data, c ≠ '\n') ∧ ¬ declEntryShape l.data) →
      manifestTally fs mf lines = ⟨0, 0, 0, 0⟩) := by
  constructor
  · intro line _
    exact parseLine_isSome_iff_shape line
  · intro fs mf lines h
    have hnone : ∀ l ∈ lines, parseLine l = none := by
      intro l hl
      rcases h l hl with ⟨-, hnd⟩
      cases hp : parseLine l with
      | none => rfl
      | some v =>
        refine absurd ((parseLine_isSome_iff_shape l).mp ?_) hnd
        rw [hp]
        rfl
    unfold manifestTally manifestOutcomes entriesOfLines
    rw [List.filterMap_eq_nil_iff.mpr hnone]
    rfl

/-- C9: after the 32-character checksum field, the first run of two or more
whitespace characters is the separator and everything after it, trimmed of
surrounding whitespace, is the filename, so filenames may hold single
embedded spaces; the example line parses to filename my file.txt. -/
theorem claimC9_separator_first_run :
    (∀ (h s : List Char) (c0 : Char) (r : List Char),
      h.length = 32 → h.all isHexChar = true → 2 ≤ s.length →
      s.all isPySpace = true → isPySpace c0 = false →
      parseLine (String.mk (h ++ s ++ c0 :: r)) =
        some (entryExpected h, entryFilename (c0 :: r))) ∧
    parseLine "d41d8cd98f00b204e9800998ecf8427e  my file.txt" =
      some ("d41d8cd98f00b204e9800998ecf8427e", "my file.txt") := by
  constructor
  · intro h s c0 r hh32 hhex hs2 hsp hc0
    have hm : matchEntry (h ++ (s ++ c0 :: r)) = some (h, c0 :: r) := by
      unfold matchEntry
      rw [List.take_left' hh32, List.drop_left' hh32,
        takeWhile_append_all _ _ _ hsp,
        List.takeWhile_cons_of_neg (by simp [hc0]), List.append_nil,
        List.length_append, List.length_cons]
      have hj : min s.length (s.length + (r.length + 1) - 1) = s.length := by
        omega
      rw [hj, if_pos ⟨hh32, hhex, hs2⟩, List.drop_left]
    unfold parseLine
    rw [show (String.mk (h ++ s ++ c0 :: r)).data = h ++ s ++ c0 :: r from rfl,
      List.append_assoc, parse_of_match _ _ _ hm]
    rfl
  · decide

/-! ### Witnesses: each hypothesis-bearing claim theorem applied at a
concrete input -/

/-- Witness for C1: a readable-but-unhashable file hits the compute-error
branch and is counted among failures, not among not-found. -/
theorem claimC1_witness :
    classifyEntry [(["f.txt"], FileState.unreadable)] []
        (entryExpected "d41d8cd98f00b204e9800998ecf8427e".data)
        (entryFilename "f.txt".data) =
      .failCompute (entryExpected "d41d8cd98f00b204e9800998ecf8427e".data) ∧
    (tallyStep ⟨5, 1, 2, 2⟩
      (.failCompute (entryExpected "d41d8cd98f00b204e9800998ecf8427e".data))).incorrectos =
      (⟨5, 1, 2, 2⟩ : Tally).incorrectos + 1 ∧
    (tallyStep ⟨5, 1, 2, 2⟩
      (.failCompute (entryExpected "d41d8cd98f00b204e9800998ecf8427e".data))).noEncontrados =
      (⟨5, 1, 2, 2⟩ : Tally).noEncontrados :=
  (claimC1_entry_classification [(["f.txt"], FileState.unreadable)] []
    "d41d8cd98f00b204e9800998ecf8427e  f.txt".data
    "d41d8cd98f00b204e9800998ecf8427e".data "f.txt".data ⟨5, 1, 2, 2⟩ ""
    (by decide)).2.2.2.1 (by decide) (by decide)

/-- Witness for C3: a manifest holding only malformed lines (free text, and
a single-space separator) yields zero total entries. -/
theorem claimC3_witness :
    manifestTally [] ["m"]
      ["not a manifest line", "d41d8cd98f00b204e9800998ecf8427e f.txt"] =
      ⟨0, 0, 0, 0⟩ := by
  apply claimC3_entry_pattern.2
  intro l hl
  have hcases : l = "not a manifest line" ∨
      l = "d41d8cd98f00b204e9800998ecf8427e f.txt" := by
    simpa using hl
  rcases hcases with rfl | rfl
  · refine ⟨by decide, fun hd => ?_⟩
    have hsome := (claimC3_entry_pattern.1 _ (by decide)).mpr hd
    exact absurd hsome (by decide)
  · refine ⟨by decide, fun hd => ?_⟩
    have hsome := (claimC3_entry_pattern.1 _ (by decide)).mpr hd
    exact absurd hsome (by decide)

/-- Witness for C4: a manifest whose single entry is missing makes the run
not clean, and with fail-exit set the verifier exits 2. -/
theorem claimC4_witness :
    verifierExit
      [(["t", "md5sum.txt"],
        FileState.content "d41d8cd98f00b204e9800998ecf8427e  miss.txt\n")]
      ["t"] "md5sum*.txt" true = 2 :=
  (claimC4_clean_flag_exit.2.2
    [(["t", "md5sum.txt"],
      FileState.content "d41d8cd98f00b204e9800998ecf8427e  miss.txt\n")]
    ["t"] "md5sum*.txt" true).mpr
    ⟨rfl, ["t", "md5sum.txt"], by decide, by decide⟩

/-- Witness for C5: in the end-to-end scenario the entry is OK exactly
because the lowercased digests agree, with an uppercase expected digest. -/
theorem claimC5_witness :
    classifyEntry scenarioFS ["t", "sub"]
        (lowerStr "49F68A5C8493EC2C0BF489821C21FC3B") "../a.txt" = .ok ↔
      lowerStr "49f68a5c8493ec2c0bf489821c21fc3b" =
        lowerStr "49F68A5C8493EC2C0BF489821C21FC3B" :=
  claimC5_one_outcome_per_entry.2.2.2 scenarioFS ["t", "sub"] "../a.txt"
    "49F68A5C8493EC2C0BF489821C21FC3B" "49f68a5c8493ec2c0bf489821c21fc3b"
    (by decide) (by decide)

/-- Witness for C6: a tree with one readable and one unreadable file emits
the sentinel error line for the latter yet keeps it in the output. -/
theorem claimC6_witness :
    (generatorRun
      [(["t", "good.txt"], FileState.content "hi"),
       (["t", "bad.txt"], FileState.unreadable)] ["t"] false true).outLines =
      ["00000000000000000000000000000000  bad.txt  # ERROR",
       "49f68a5c8493ec2c0bf489821c21fc3b  good.txt"] := by
  have hrun := (claimC6_generator_output.2.2.2
    [(["t", "good.txt"], FileState.content "hi"),
     (["t", "bad.txt"], FileState.unreadable)] ["t"] false true (by decide)).1
  rw [hrun]
  decide

/-- Witness for C8 amended: the generator on a missing root aborts with
exit code 2 and no output. -/
theorem claimC8_amended_witness :
    generatorRun [(["u", "x.txt"], FileState.content "hello")] ["t"] false true =
      ⟨2, [], 0, 0⟩ :=
  claimC8_amended_missing_root.2 [(["u", "x.txt"], FileState.content "hello")]
    ["t"] false true (by decide)

/-- Witness for C9: the example line with an embedded space in the filename
parses with the two-space run as the separator. -/
theorem claimC9_witness :
    parseLine (String.mk ("d41d8cd98f00b204e9800998ecf8427e".data ++
        "  ".data ++ 'm' :: "y file.txt".data)) =
      some (entryExpected "d41d8cd98f00b204e9800998ecf8427e".data,
        entryFilename ('m' :: "y file.txt".data)) :=
  claimC9_separator_first_run.1 "d41d8cd98f00b204e9800998ecf8427e".data
    "  ".data 'm' "y file.txt".data (by decide) (by decide) (by decide)
    (by decide) (by decide)

/-- Witness for C10: a run whose only discovered manifest is unreadable
exits 0 even under fail-exit. -/
theorem claimC10_witness :
    verifierExit [(["t", "md5sum_a.txt"], FileState.unreadable)] ["t"]
      "md5sum*.txt" true = 0 := by
  apply claimC10_unreadable_manifest.2.2
  decide

end ToolsGP
